import Mathlib

/-!
# tusd-dropbox-store: the upload-session store

A shallow embedding of `dropboxstore.go`.  The store keeps one `.info` record per
upload on the local filesystem and drives the Dropbox upload-session API
(start / append / finish).

Conventions of the embedding

* Go's `error` is `Option Error` (`none` is `nil`); a pair `(value, err)` stays a pair.
* `int64` values are integers; every `+=` of the source goes through `wrap64`, the
  two's-complement wrap-around of a 64-bit addition.
* The local filesystem, `encoding/json` and the Dropbox client are libraries outside
  the repository.  The filesystem is a state `FS`, the other two are taken as
  parameters (`Json`, `Dropbox`), the Dropbox service with a state of its own.
* An `io.Reader` is the finite list of bytes it still has to deliver.
-/

namespace DropboxStore

/-! ## Values shared with the libraries -/

/-- Go `error` values that the store can see. -/
inductive Error where
  /-- `*os.PathError` wrapping `ENOENT`. -/
  | notExist (op path : String)
  /-- Any other `*os.PathError` (permissions, missing directory on create, ...). -/
  | pathError (op path : String)
  /-- An error of `encoding/json`. -/
  | json (msg : String)
  /-- An error reported by the Dropbox client. -/
  | remote (msg : String)
  deriving DecidableEq, Repr

/-- The test `os.IsNotExist`. -/
def Error.isNotExist : Error → Bool
  | .notExist _ _ => true
  | _ => false

/-- A Go `map[string]string`, kept as an association list (first binding wins). -/
abbrev MetaData := List (String × String)

/-- The index expression `m[k]` of Go: the zero value `""` when the key is missing. -/
def mapIndex (m : MetaData) (k : String) : String :=
  (m.lookup k).getD ""

/-- The builtin `delete(m, k)` of Go. -/
def mapDelete (m : MetaData) (k : String) : MetaData :=
  m.filter (fun kv => kv.1 != k)

/-- Modelled from the spec: the record type `tusd.FileInfo` is declared by the host
framework and not by this repository; the spec gives the persisted record the fields
`id`, `offset` and `metadata`. -/
structure FileInfo where
  ID : String
  Offset : Int
  MetaData : MetaData
  deriving DecidableEq, Repr

/-- The zero value of `tusd.FileInfo` (what a named result holds before assignment). -/
def FileInfo.zero : FileInfo :=
  { ID := "", Offset := 0, MetaData := [] }

/-- The two functions of `encoding/json` the store calls, on files of content `Data`.
`Unmarshal` fills a zero record and may return an error next to what it filled. -/
structure Json (Data : Type) where
  Marshal : FileInfo → Except Error Data
  Unmarshal : Data → FileInfo × Option Error

/-- The local filesystem: the content of each path, and whether the environment lets
`ioutil.WriteFile` / `os.Remove` succeed at a path. -/
structure FS (Data : Type) where
  files : String → Option Data
  writable : String → Bool
  removable : String → Bool

/-- The function `ioutil.ReadFile`. -/
def FS.ReadFile {Data : Type} (fs : FS Data) (path : String) : Option Data × Option Error :=
  match fs.files path with
  | some d => (some d, none)
  | none => (none, some (.notExist "open" path))

/-- The function `ioutil.WriteFile`: replaces the whole content of `path`. -/
def FS.WriteFile {Data : Type} (fs : FS Data) (path : String) (data : Data) :
    FS Data × Option Error :=
  if fs.writable path then
    ({ fs with files := fun p => if p = path then some data else fs.files p }, none)
  else
    (fs, some (.pathError "open" path))

/-- The function `os.Remove`. -/
def FS.Remove {Data : Type} (fs : FS Data) (path : String) : FS Data × Option Error :=
  match fs.files path with
  | none => (fs, some (.notExist "remove" path))
  | some _ =>
    if fs.removable path then
      ({ fs with files := fun p => if p = path then none else fs.files p }, none)
    else
      (fs, some (.pathError "remove" path))

/-- The struct `dropbox.SessionCursor`. -/
structure SessionCursor where
  ID : String
  Offset : Int
  deriving DecidableEq, Repr

/-- The upload-session calls of the Dropbox client, as transitions of the remote
service.  Every call is made with the token the client was built from.
A successful `SessionAppend` has transmitted the whole reader it was given. -/
structure Dropbox (σ : Type) where
  SessionStart : σ → (token : String) → σ × Except Error String
  SessionAppend : σ → (token : String) → SessionCursor → (body : List UInt8) → σ × Option Error
  SessionFinish : σ → (token : String) → SessionCursor → (path : String) → σ × Option Error

/-- Two's-complement wrap-around of an `int64` result. -/
def wrap64 (z : Int) : Int :=
  (z + 9223372036854775808) % 18446744073709551616 - 9223372036854775808

/-- The struct `io.LimitedReader`: the underlying reader and the bytes it may still read. -/
structure LimitedReader where
  R : List UInt8
  N : Int

/-- Reading a `LimitedReader` until it reports `EOF`: it hands over at most `N` bytes
(none when `N <= 0`) and lowers `N` by the number of bytes read. -/
def LimitedReader.readAll (lr : LimitedReader) : List UInt8 × LimitedReader :=
  let body := lr.R.take lr.N.toNat
  (body, { R := lr.R.drop lr.N.toNat, N := lr.N - body.length })

/-! ## The store -/

/-- The struct `Config`. -/
structure Config where
  Token : String
  ChunkSize : Int
  Path : String

/-- The struct `DropboxStore`, with the libraries it is linked against. -/
structure Store (σ Data : Type) where
  Config : Config
  dropbox : Dropbox σ
  json : Json Data

/-- What the store acts on: the local filesystem and the remote service. -/
structure World (σ Data : Type) where
  fs : FS Data
  remote : σ

variable {σ Data : Type}

/-- The method `infoPath`. -/
def infoPath (s : Store σ Data) (id : String) : String :=
  s.Config.Path ++ "/" ++ id ++ ".info"

/-- The method `getInfo`. -/
def getInfo (s : Store σ Data) (fs : FS Data) (id : String) : FileInfo × Option Error :=
  match fs.ReadFile (infoPath s id) with
  | (some data, none) => s.json.Unmarshal data
  | (_, some err) => (FileInfo.zero, some err)
  | (none, none) => (FileInfo.zero, none)

/-- The method `writeInfo`. -/
def writeInfo (s : Store σ Data) (fs : FS Data) (id : String) (info : FileInfo) :
    FS Data × Option Error :=
  match s.json.Marshal info with
  | .error err => (fs, some err)
  | .ok data => fs.WriteFile (infoPath s id) data

/-- What `NewUpload` returns, and the world it leaves. -/
structure NewUploadResult (σ Data : Type) where
  id : String
  err : Option Error
  world : World σ Data

/-- The method `NewUpload`.  The result of `writeInfo` is dropped, as in the source. -/
def NewUpload (s : Store σ Data) (w : World σ Data) (info : FileInfo) :
    NewUploadResult σ Data :=
  match s.dropbox.SessionStart w.remote (mapIndex info.MetaData "token") with
  | (remote, .error err) => { id := "", err := some err, world := { w with remote := remote } }
  | (remote, .ok sid) =>
    let id := sid
    let info := { info with ID := id }
    let fs := (writeInfo s w.fs id info).1
    { id := id, err := none, world := { fs := fs, remote := remote } }

/-- One call of `Session.Append` as the service saw it. -/
structure AppendCall where
  Cursor : SessionCursor
  body : List UInt8
  deriving DecidableEq, Repr

/-- One pass through the body of the `uploadparts` loop, up to the test of `err`. -/
structure Round (σ : Type) where
  /-- The append call that was issued. -/
  call : AppendCall
  remote : σ
  err : Option Error
  /-- The bytes the source reader still holds. -/
  rest : List UInt8
  /-- The value `s.Config.ChunkSize - lr.N` after the call. -/
  uploaded : Int

/-- The statements `lr.N = s.Config.ChunkSize`, `err = ...Session.Append(...)` and
`uploaded := int64(s.Config.ChunkSize - lr.N)` of the loop body. -/
def appendRound (s : Store σ Data) (token id : String) (src : List UInt8) (offset : Int)
    (remote : σ) : Round σ :=
  let lr : LimitedReader := { R := src, N := s.Config.ChunkSize }
  let cursor : SessionCursor := { ID := id, Offset := offset }
  let (body, lr) := lr.readAll
  let (remote, err) := s.dropbox.SessionAppend remote token cursor body
  { call := { Cursor := cursor, body := body }, remote := remote, err := err,
    rest := lr.R, uploaded := s.Config.ChunkSize - lr.N }

/-- The state in which the `uploadparts` loop of `WriteChunk` ends. -/
structure LoopResult (σ : Type) where
  bytesUploaded : Int
  err : Option Error
  remote : σ
  /-- The append calls issued, oldest first. -/
  calls : List AppendCall

/-- The loop `uploadparts: for { ... }` of `WriteChunk`, by recursion on the bytes the
reader still holds: a round that does not leave the loop has consumed at least one. -/
def uploadparts (s : Store σ Data) (token id : String) (src : List UInt8)
    (offset bytesUploaded : Int) (remote : σ) : LoopResult σ :=
  let r := appendRound s token id src offset remote
  match r.err with
  | some err =>
    { bytesUploaded := bytesUploaded, err := some err, remote := r.remote, calls := [r.call] }
  | none =>
    let offset' := wrap64 (offset + r.uploaded)
    let bytesUploaded' := wrap64 (bytesUploaded + r.uploaded)
    if h : r.uploaded = 0 then
      { bytesUploaded := bytesUploaded', err := none, remote := r.remote, calls := [r.call] }
    else
      let res := uploadparts s token id r.rest offset' bytesUploaded' r.remote
      { res with calls := r.call :: res.calls }
termination_by src.length
decreasing_by
  simp only [r, appendRound, LimitedReader.readAll, List.length_take, List.length_drop] at h ⊢
  omega

/-- The same loop run for at most `fuel` rounds: `none` when the rounds run out before
the loop is left. -/
def uploadpartsFuel (s : Store σ Data) (token id : String) :
    Nat → List UInt8 → Int → Int → σ → Option (LoopResult σ)
  | 0, _, _, _, _ => none
  | fuel + 1, src, offset, bytesUploaded, remote =>
    let r := appendRound s token id src offset remote
    match r.err with
    | some err =>
      some { bytesUploaded := bytesUploaded, err := some err, remote := r.remote,
             calls := [r.call] }
    | none =>
      let offset' := wrap64 (offset + r.uploaded)
      let bytesUploaded' := wrap64 (bytesUploaded + r.uploaded)
      if r.uploaded = 0 then
        some { bytesUploaded := bytesUploaded', err := none, remote := r.remote,
               calls := [r.call] }
      else
        (uploadpartsFuel s token id fuel r.rest offset' bytesUploaded' r.remote).map
          (fun res => { res with calls := r.call :: res.calls })

/-- What `WriteChunk` returns, the world it leaves and the append calls it issued. -/
structure WriteChunkResult (σ Data : Type) where
  bytesUploaded : Int
  err : Option Error
  world : World σ Data
  calls : List AppendCall

/-- The method `WriteChunk`.  The result of `writeInfo` is dropped, as in the source. -/
def WriteChunk (s : Store σ Data) (w : World σ Data) (id : String) (offset : Int)
    (src : List UInt8) : WriteChunkResult σ Data :=
  match getInfo s w.fs id with
  | (_, some err) => { bytesUploaded := 0, err := some err, world := w, calls := [] }
  | (info, none) =>
    let res := uploadparts s (mapIndex info.MetaData "token") id src offset 0 w.remote
    match res.err with
    | some err =>
      { bytesUploaded := res.bytesUploaded, err := some err,
        world := { w with remote := res.remote }, calls := res.calls }
    | none =>
      let info := { info with ID := id }
      let info := { info with Offset := wrap64 (info.Offset + res.bytesUploaded) }
      let fs := (writeInfo s w.fs id info).1
      { bytesUploaded := res.bytesUploaded, err := none,
        world := { fs := fs, remote := res.remote }, calls := res.calls }

/-- The method `GetInfo`. -/
def GetInfo (s : Store σ Data) (fs : FS Data) (id : String) : FileInfo × Option Error :=
  let (info, err) := getInfo s fs id
  ({ info with MetaData := mapDelete info.MetaData "token" }, err)

/-- The method `Terminate`. -/
def Terminate (s : Store σ Data) (fs : FS Data) (id : String) : FS Data × Option Error :=
  fs.Remove (infoPath s id)

/-- The method `FinishUpload`: the error returned and the world it leaves. -/
def FinishUpload (s : Store σ Data) (w : World σ Data) (id : String) :
    Option Error × World σ Data :=
  match getInfo s w.fs id with
  | (_, some err) => (some err, w)
  | (info, none) =>
    let cursor : SessionCursor := { ID := id, Offset := info.Offset }
    let (remote, err) :=
      s.dropbox.SessionFinish w.remote (mapIndex info.MetaData "token") cursor
        (mapIndex info.MetaData "path")
    (err, { w with remote := remote })

/-! ## Assumptions on the libraries, and concrete instances of them -/

/-- Every record can be encoded, and decoding an encoded record gives it back. -/
def Json.Faithful (j : Json Data) : Prop :=
  ∀ info : FileInfo, ∃ d : Data, j.Marshal info = .ok d ∧ j.Unmarshal d = (info, none)

/-- No remote append call fails. -/
def Dropbox.AppendsSucceed (d : Dropbox σ) : Prop :=
  ∀ (remote : σ) (token : String) (c : SessionCursor) (body : List UInt8),
    (d.SessionAppend remote token c body).2 = none

/-- The caller of the spec's scenario: `WriteChunk` once per stream, in order, each call
given the offset reached so far. -/
def writeChunks (s : Store σ Data) (id : String) :
    World σ Data → Int → List (List UInt8) → World σ Data
  | w, _, [] => w
  | w, offset, src :: rest =>
    let r := WriteChunk s w id offset src
    writeChunks s id r.world (wrap64 (offset + r.bytesUploaded)) rest

/-- A codec whose file content is the record itself. -/
def plainJson : Json FileInfo :=
  { Marshal := fun info => .ok info, Unmarshal := fun d => (d, none) }

/-- A remote service that counts the calls it has served, hands out the session id
`sid`, and fails every append from call number `failFrom` on. -/
def countingDropbox (sid : String) (failFrom : Nat) : Dropbox Nat :=
  { SessionStart := fun n _ => (n + 1, .ok sid)
    SessionAppend := fun n _ _ _ =>
      (n + 1, if n < failFrom then none else some (.remote "append"))
    SessionFinish := fun n _ _ _ => (n + 1, none) }

/-- A remote service that never fails. -/
def okDropbox (sid : String) : Dropbox Unit :=
  { SessionStart := fun _ _ => ((), .ok sid)
    SessionAppend := fun _ _ _ _ => ((), none)
    SessionFinish := fun _ _ _ _ => ((), none) }

/-- An empty directory; `canWrite` says whether files may be written and removed in it. -/
def emptyFS (canWrite : Bool) : FS FileInfo :=
  { files := fun _ => none, writable := fun _ => canWrite, removable := fun _ => canWrite }

/-- A directory holding the single record `info` at `path`; `canWrite` says whether
files may be written and removed in it. -/
def singleFS (path : String) (info : FileInfo) (canWrite : Bool) : FS FileInfo :=
  { files := fun p => if p = path then some info else none
    writable := fun _ => canWrite, removable := fun _ => canWrite }

/-- The record of the spec's scenario: upload `abc`, nothing appended yet. -/
def abcInfo : FileInfo :=
  { ID := "abc", Offset := 0, MetaData := [("token", "T"), ("path", "/dest")] }

/-- An upload info that carries a token and a non-zero `Offset`. -/
def offsetInfo : FileInfo :=
  { ID := "", Offset := 7, MetaData := [("token", "T"), ("path", "/dest")] }

/-- The ten bytes of the spec's scenario. -/
def tenBytes : List UInt8 := [1, 2, 3, 4, 5, 6, 7, 8, 9, 10]

/-- A store with chunk size `chunk` over the directory `/tmp`. -/
def testStore (d : Dropbox σ) (chunk : Int) : Store σ FileInfo :=
  { Config := { Token := "", ChunkSize := chunk, Path := "/tmp" }, dropbox := d,
    json := plainJson }

/-- The remote service answering a list of append calls one after the other, from the
state `remote`: the state it ends in, and the first error it answers, after which no
further call is made. -/
def serve (d : Dropbox σ) (token : String) : σ → List AppendCall → σ × Option Error
  | remote, [] => (remote, none)
  | remote, c :: cs =>
    match d.SessionAppend remote token c.Cursor c.body with
    | (remote', some err) => (remote', some err)
    | (remote', none) => serve d token remote' cs

/-- The errors returned by the calls that `writeChunks` makes, oldest first. -/
def writeChunksErrs (s : Store σ Data) (id : String) :
    World σ Data → Int → List (List UInt8) → List (Option Error)
  | _, _, [] => []
  | w, offset, src :: rest =>
    let r := WriteChunk s w id offset src
    r.err :: writeChunksErrs s id r.world (wrap64 (offset + r.bytesUploaded)) rest

/-- A remote service whose state is the list of the append calls it has accepted, oldest
first.  It knows the single session `sid` and rejects an append for any other one. -/
def recordingDropbox (sid : String) : Dropbox (List AppendCall) :=
  { SessionStart := fun log _ => (log, .ok sid)
    SessionAppend := fun log _ c body =>
      if c.ID = sid then (log ++ [{ Cursor := c, body := body }], none)
      else (log, some (.remote "not_found"))
    SessionFinish := fun log _ _ _ => (log, none) }

/-! ## Arithmetic of `int64` -/

theorem wrap64_of_range (z : Int) (h1 : -9223372036854775808 ≤ z)
    (h2 : z < 9223372036854775808) : wrap64 z = z := by
  unfold wrap64; omega

theorem wrap64_wrap64_add (a b : Int) : wrap64 (wrap64 a + b) = wrap64 (a + b) := by
  unfold wrap64; omega

/-! ## One round of the loop -/

theorem appendRound_call (s : Store σ Data) (token id : String) (src : List UInt8)
    (offset : Int) (remote : σ) :
    (appendRound s token id src offset remote).call =
      { Cursor := { ID := id, Offset := offset }, body := src.take s.Config.ChunkSize.toNat } :=
  rfl

theorem appendRound_rest (s : Store σ Data) (token id : String) (src : List UInt8)
    (offset : Int) (remote : σ) :
    (appendRound s token id src offset remote).rest = src.drop s.Config.ChunkSize.toNat :=
  rfl

theorem appendRound_uploaded (s : Store σ Data) (token id : String) (src : List UInt8)
    (offset : Int) (remote : σ) :
    (appendRound s token id src offset remote).uploaded =
      ((src.take s.Config.ChunkSize.toNat).length : Int) := by
  simp only [appendRound, LimitedReader.readAll]
  omega

theorem appendRound_err (s : Store σ Data) (token id : String) (src : List UInt8)
    (offset : Int) (remote : σ) :
    (appendRound s token id src offset remote).err =
      (s.dropbox.SessionAppend remote token { ID := id, Offset := offset }
        (src.take s.Config.ChunkSize.toNat)).2 :=
  rfl

theorem appendRound_uploaded_eq_zero (s : Store σ Data) (token id : String)
    (src : List UInt8) (offset : Int) (remote : σ) :
    (appendRound s token id src offset remote).uploaded = 0 ↔
      (appendRound s token id src offset remote).call.body = [] := by
  rw [appendRound_uploaded, appendRound_call]
  constructor
  · intro h
    exact List.length_eq_zero.mp (by exact_mod_cast h)
  · intro h
    simp only at h
    rw [h]
    rfl

/-! ## The loop, whatever the remote service answers -/

theorem uploadparts_failed (s : Store σ Data) (token id : String) (src : List UInt8)
    (offset bytesUploaded : Int) (remote : σ) (err : Error)
    (herr : (appendRound s token id src offset remote).err = some err) :
    uploadparts s token id src offset bytesUploaded remote =
      { bytesUploaded := bytesUploaded, err := some err,
        remote := (appendRound s token id src offset remote).remote,
        calls := [(appendRound s token id src offset remote).call] } := by
  rw [uploadparts]; simp only [herr]

theorem uploadparts_done (s : Store σ Data) (token id : String) (src : List UInt8)
    (offset bytesUploaded : Int) (remote : σ)
    (herr : (appendRound s token id src offset remote).err = none)
    (h0 : (appendRound s token id src offset remote).uploaded = 0) :
    uploadparts s token id src offset bytesUploaded remote =
      { bytesUploaded := wrap64 (bytesUploaded + 0), err := none,
        remote := (appendRound s token id src offset remote).remote,
        calls := [(appendRound s token id src offset remote).call] } := by
  rw [uploadparts]; simp only [herr, h0, dite_true]

theorem uploadparts_again (s : Store σ Data) (token id : String) (src : List UInt8)
    (offset bytesUploaded : Int) (remote : σ)
    (herr : (appendRound s token id src offset remote).err = none)
    (h0 : ¬ (appendRound s token id src offset remote).uploaded = 0) :
    uploadparts s token id src offset bytesUploaded remote =
      { uploadparts s token id (appendRound s token id src offset remote).rest
          (wrap64 (offset + (appendRound s token id src offset remote).uploaded))
          (wrap64 (bytesUploaded + (appendRound s token id src offset remote).uploaded))
          (appendRound s token id src offset remote).remote with
        calls := (appendRound s token id src offset remote).call ::
          (uploadparts s token id (appendRound s token id src offset remote).rest
            (wrap64 (offset + (appendRound s token id src offset remote).uploaded))
            (wrap64 (bytesUploaded + (appendRound s token id src offset remote).uploaded))
            (appendRound s token id src offset remote).remote).calls } := by
  rw [uploadparts]; simp only [herr, h0, dite_false]

theorem uploadparts_calls_length (s : Store σ Data) (token id : String) (src : List UInt8)
    (offset bytesUploaded : Int) (remote : σ) :
    (uploadparts s token id src offset bytesUploaded remote).calls.length ≤ src.length + 1 := by
  induction src, offset, bytesUploaded, remote using uploadparts.induct s token id with
  | case1 src offset bu remote r err herr =>
    rw [uploadparts_failed s token id src offset bu remote err herr]; simp
  | case2 src offset bu remote r herr h0 =>
    rw [uploadparts_done s token id src offset bu remote herr h0]; simp
  | case3 src offset bu remote r herr offset' bu' h0 ih =>
    rw [uploadparts_again s token id src offset bu remote herr h0]
    simp only [r, offset', bu', appendRound_rest, appendRound_uploaded, List.length_cons,
      List.length_drop, List.length_take] at ih h0 ⊢
    omega

theorem uploadparts_calls_ne_nil (s : Store σ Data) (token id : String) (src : List UInt8)
    (offset bytesUploaded : Int) (remote : σ) :
    (uploadparts s token id src offset bytesUploaded remote).calls ≠ [] := by
  rw [uploadparts]
  split
  · simp
  · split <;> simp

theorem uploadparts_dropLast_body (s : Store σ Data) (token id : String) (src : List UInt8)
    (offset bytesUploaded : Int) (remote : σ) :
    ∀ c ∈ (uploadparts s token id src offset bytesUploaded remote).calls.dropLast, c.body ≠ [] := by
  induction src, offset, bytesUploaded, remote using uploadparts.induct s token id with
  | case1 src offset bu remote r err herr =>
    rw [uploadparts_failed s token id src offset bu remote err herr]; simp
  | case2 src offset bu remote r herr h0 =>
    rw [uploadparts_done s token id src offset bu remote herr h0]; simp
  | case3 src offset bu remote r herr offset' bu' h0 ih =>
    rw [uploadparts_again s token id src offset bu remote herr h0]
    simp only [List.dropLast_cons_of_ne_nil (uploadparts_calls_ne_nil _ _ _ _ _ _ _),
      List.mem_cons]
    rintro c (rfl | hc)
    · intro hnil
      exact h0 ((appendRound_uploaded_eq_zero s token id src offset remote).mpr hnil)
    · exact ih c hc

theorem uploadparts_last_body (s : Store σ Data) (token id : String) (src : List UInt8)
    (offset bytesUploaded : Int) (remote : σ)
    (hok : (uploadparts s token id src offset bytesUploaded remote).err = none) :
    ∃ c, (uploadparts s token id src offset bytesUploaded remote).calls.getLast? = some c ∧
      c.body = [] := by
  induction src, offset, bytesUploaded, remote using uploadparts.induct s token id with
  | case1 src offset bu remote r err herr =>
    rw [uploadparts_failed s token id src offset bu remote err herr] at hok; simp at hok
  | case2 src offset bu remote r herr h0 =>
    rw [uploadparts_done s token id src offset bu remote herr h0]
    exact ⟨_, rfl, (appendRound_uploaded_eq_zero s token id src offset remote).mp h0⟩
  | case3 src offset bu remote r herr offset' bu' h0 ih =>
    rw [uploadparts_again s token id src offset bu remote herr h0] at hok ⊢
    obtain ⟨c, hc, hb⟩ := ih hok
    refine ⟨c, ?_, hb⟩
    simp only
    rw [List.getLast?_cons, hc]
    rfl

theorem uploadpartsFuel_eq (s : Store σ Data) (token id : String) (src : List UInt8)
    (offset bytesUploaded : Int) (remote : σ) :
    ∀ fuel : Nat, src.length < fuel →
      uploadpartsFuel s token id fuel src offset bytesUploaded remote =
        some (uploadparts s token id src offset bytesUploaded remote) := by
  induction src, offset, bytesUploaded, remote using uploadparts.induct s token id with
  | case1 src offset bu remote r err herr =>
    intro fuel hf
    obtain ⟨fuel, rfl⟩ : ∃ k, fuel = k + 1 := ⟨fuel - 1, by omega⟩
    have herr' : (appendRound s token id src offset remote).err = some err := herr
    rw [uploadparts_failed s token id src offset bu remote err herr, uploadpartsFuel]
    simp only [herr']
  | case2 src offset bu remote r herr h0 =>
    intro fuel hf
    obtain ⟨fuel, rfl⟩ : ∃ k, fuel = k + 1 := ⟨fuel - 1, by omega⟩
    have herr' : (appendRound s token id src offset remote).err = none := herr
    have h0' : (appendRound s token id src offset remote).uploaded = 0 := h0
    rw [uploadparts_done s token id src offset bu remote herr h0, uploadpartsFuel]
    simp only [herr', h0', if_true]
  | case3 src offset bu remote r herr offset' bu' h0 ih =>
    intro fuel hf
    obtain ⟨fuel, rfl⟩ : ∃ k, fuel = k + 1 := ⟨fuel - 1, by omega⟩
    have herr' : (appendRound s token id src offset remote).err = none := herr
    have h0' : ¬ (appendRound s token id src offset remote).uploaded = 0 := h0
    rw [uploadparts_again s token id src offset bu remote herr h0, uploadpartsFuel]
    simp only [herr', h0', if_false]
    rw [ih fuel (by
      simp only [r, appendRound_rest, appendRound_uploaded, List.length_drop,
        List.length_take] at h0 ⊢
      omega)]
    rfl

theorem uploadparts_call_shape (s : Store σ Data) (token id : String) (src : List UInt8)
    (offset bytesUploaded : Int) (remote : σ) :
    ∀ c ∈ (uploadparts s token id src offset bytesUploaded remote).calls,
      c.body.length ≤ s.Config.ChunkSize.toNat ∧ c.Cursor.ID = id := by
  induction src, offset, bytesUploaded, remote using uploadparts.induct s token id with
  | case1 src offset bu remote r err herr =>
    rw [uploadparts_failed s token id src offset bu remote err herr]
    simp [appendRound_call, List.length_take]
  | case2 src offset bu remote r herr h0 =>
    rw [uploadparts_done s token id src offset bu remote herr h0]
    simp [appendRound_call, List.length_take]
  | case3 src offset bu remote r herr offset' bu' h0 ih =>
    rw [uploadparts_again s token id src offset bu remote herr h0]
    simp only [List.mem_cons]
    rintro c (rfl | hc)
    · simp [appendRound_call, List.length_take]
    · exact ih c hc

theorem uploadparts_offsets (s : Store σ Data) (token id : String) (src : List UInt8)
    (offset bytesUploaded : Int) (remote : σ)
    (hlo : -9223372036854775808 ≤ offset)
    (hhi : offset + (src.length : Int) < 9223372036854775808) :
    ∀ (i : Nat) (hi : i < (uploadparts s token id src offset bytesUploaded remote).calls.length),
      ((uploadparts s token id src offset bytesUploaded remote).calls[i]).Cursor.Offset =
        offset + ((((uploadparts s token id src offset bytesUploaded remote).calls.take i).map
          (fun c => (c.body.length : Int))).sum) := by
  induction src, offset, bytesUploaded, remote using uploadparts.induct s token id with
  | case1 src offset bu remote r err herr =>
    rw [uploadparts_failed s token id src offset bu remote err herr]
    intro i hi
    simp only [List.length_singleton, Nat.lt_one_iff] at hi
    subst hi
    simp [appendRound_call]
  | case2 src offset bu remote r herr h0 =>
    rw [uploadparts_done s token id src offset bu remote herr h0]
    intro i hi
    simp only [List.length_singleton, Nat.lt_one_iff] at hi
    subst hi
    simp [appendRound_call]
  | case3 src offset bu remote r herr offset' bu' h0 ih =>
    have hu : (appendRound s token id src offset remote).uploaded =
        ((src.take s.Config.ChunkSize.toNat).length : Int) := appendRound_uploaded _ _ _ _ _ _
    have hlen : (src.take s.Config.ChunkSize.toNat).length +
        (src.drop s.Config.ChunkSize.toNat).length = src.length := by
      rw [← List.length_append, List.take_append_drop]
    have hw : wrap64 (offset + (appendRound s token id src offset remote).uploaded) =
        offset + ((src.take s.Config.ChunkSize.toNat).length : Int) := by
      rw [hu]
      apply wrap64_of_range <;> omega
    simp only [r, offset', bu', hw, appendRound_rest] at ih
    have ih' := ih (by omega) (by omega)
    rw [uploadparts_again s token id src offset bu remote herr h0]
    intro i hi
    cases i with
    | zero => simp [appendRound_call]
    | succ i =>
      simp only [hw, appendRound_rest, List.length_cons, Nat.add_lt_add_iff_right] at hi
      have := ih' i hi
      simp only [List.getElem_cons_succ, List.take_succ_cons, List.map_cons, List.sum_cons,
        appendRound_call, hw, appendRound_rest]
      omega

theorem appendRound_answer (s : Store σ Data) (token id : String) (src : List UInt8)
    (offset : Int) (remote : σ) :
    s.dropbox.SessionAppend remote token (appendRound s token id src offset remote).call.Cursor
        (appendRound s token id src offset remote).call.body =
      ((appendRound s token id src offset remote).remote,
        (appendRound s token id src offset remote).err) :=
  rfl

theorem uploadparts_serve (s : Store σ Data) (token id : String) (src : List UInt8)
    (offset bytesUploaded : Int) (remote : σ) :
    serve s.dropbox token remote (uploadparts s token id src offset bytesUploaded remote).calls =
      ((uploadparts s token id src offset bytesUploaded remote).remote,
        (uploadparts s token id src offset bytesUploaded remote).err) := by
  induction src, offset, bytesUploaded, remote using uploadparts.induct s token id with
  | case1 src offset bu remote r err herr =>
    have herr' : (appendRound s token id src offset remote).err = some err := herr
    rw [uploadparts_failed s token id src offset bu remote err herr]
    simp only [serve, appendRound_answer, herr']
  | case2 src offset bu remote r herr h0 =>
    have herr' : (appendRound s token id src offset remote).err = none := herr
    rw [uploadparts_done s token id src offset bu remote herr h0]
    simp only [serve, appendRound_answer, herr']
  | case3 src offset bu remote r herr offset' bu' h0 ih =>
    have herr' : (appendRound s token id src offset remote).err = none := herr
    simp only [r, offset', bu'] at ih
    rw [uploadparts_again s token id src offset bu remote herr h0]
    simp only [serve, appendRound_answer, herr']
    exact ih

theorem uploadparts_offsets_wrap (s : Store σ Data) (token id : String) (src : List UInt8)
    (offset bytesUploaded : Int) (remote : σ) :
    ∀ (i : Nat) (hi : i < (uploadparts s token id src offset bytesUploaded remote).calls.length),
      ((uploadparts s token id src offset bytesUploaded remote).calls[i]).Cursor.Offset =
        if i = 0 then offset
        else wrap64 (offset +
          ((((uploadparts s token id src offset bytesUploaded remote).calls.take i).map
            (fun c => (c.body.length : Int))).sum)) := by
  induction src, offset, bytesUploaded, remote using uploadparts.induct s token id with
  | case1 src offset bu remote r err herr =>
    rw [uploadparts_failed s token id src offset bu remote err herr]
    intro i hi
    simp only [List.length_singleton, Nat.lt_one_iff] at hi
    subst hi
    simp [appendRound_call]
  | case2 src offset bu remote r herr h0 =>
    rw [uploadparts_done s token id src offset bu remote herr h0]
    intro i hi
    simp only [List.length_singleton, Nat.lt_one_iff] at hi
    subst hi
    simp [appendRound_call]
  | case3 src offset bu remote r herr offset' bu' h0 ih =>
    simp only [r, offset', bu', appendRound_rest, appendRound_uploaded] at ih
    rw [uploadparts_again s token id src offset bu remote herr h0]
    intro i hi
    cases i with
    | zero => simp [appendRound_call]
    | succ i =>
      simp only [appendRound_rest, appendRound_uploaded, List.length_cons,
        Nat.add_lt_add_iff_right] at hi
      have h := ih i hi
      simp only [List.getElem_cons_succ, List.take_succ_cons, List.map_cons, List.sum_cons,
        appendRound_call, appendRound_rest, appendRound_uploaded, Nat.succ_ne_zero, if_false]
      rw [h]
      by_cases hz : i = 0
      · subst hz
        simp
      · rw [if_neg hz, wrap64_wrap64_add, Int.add_assoc]

/-! ## The loop when no append fails -/

theorem uploadparts_err (s : Store σ Data) (token id : String) (src : List UInt8)
    (offset bytesUploaded : Int) (remote : σ) (hA : s.dropbox.AppendsSucceed) :
    (uploadparts s token id src offset bytesUploaded remote).err = none := by
  induction src, offset, bytesUploaded, remote using uploadparts.induct s token id with
  | case1 src offset bu remote r err herr =>
    have h := hA remote token { ID := id, Offset := offset } (src.take s.Config.ChunkSize.toNat)
    have herr' : (appendRound s token id src offset remote).err = some err := herr
    rw [appendRound_err, h] at herr'
    cases herr'
  | case2 src offset bu remote r herr h0 =>
    rw [uploadparts_done s token id src offset bu remote herr h0]
  | case3 src offset bu remote r herr offset' bu' h0 ih =>
    rw [uploadparts_again s token id src offset bu remote herr h0]
    exact ih

theorem uploadparts_bodies (s : Store σ Data) (token id : String) (src : List UInt8)
    (offset bytesUploaded : Int) (remote : σ)
    (hok : (uploadparts s token id src offset bytesUploaded remote).err = none)
    (hC : 0 < s.Config.ChunkSize) :
    ((uploadparts s token id src offset bytesUploaded remote).calls.map
      (fun c => c.body)).flatten = src := by
  induction src, offset, bytesUploaded, remote using uploadparts.induct s token id with
  | case1 src offset bu remote r err herr =>
    rw [uploadparts_failed s token id src offset bu remote err herr] at hok
    cases hok
  | case2 src offset bu remote r herr h0 =>
    rw [uploadparts_done s token id src offset bu remote herr h0]
    have h0' : (appendRound s token id src offset remote).uploaded = 0 := h0
    rw [appendRound_uploaded, List.length_take] at h0'
    have hnil : src = [] := List.length_eq_zero.mp (by omega)
    subst hnil
    simp [appendRound_call]
  | case3 src offset bu remote r herr offset' bu' h0 ih =>
    rw [uploadparts_again s token id src offset bu remote herr h0] at hok
    have ih := ih hok
    simp only [r, offset', bu'] at ih
    rw [uploadparts_again s token id src offset bu remote herr h0]
    simp only [List.map_cons, List.flatten_cons]
    rw [ih, appendRound_call, appendRound_rest]
    exact List.take_append_drop _ _

theorem uploadparts_bytesUploaded (s : Store σ Data) (token id : String) (src : List UInt8)
    (offset bytesUploaded : Int) (remote : σ)
    (hok : (uploadparts s token id src offset bytesUploaded remote).err = none)
    (hC : 0 < s.Config.ChunkSize) :
    (uploadparts s token id src offset bytesUploaded remote).bytesUploaded =
      wrap64 (bytesUploaded + (src.length : Int)) := by
  induction src, offset, bytesUploaded, remote using uploadparts.induct s token id with
  | case1 src offset bu remote r err herr =>
    rw [uploadparts_failed s token id src offset bu remote err herr] at hok
    cases hok
  | case2 src offset bu remote r herr h0 =>
    rw [uploadparts_done s token id src offset bu remote herr h0]
    have h0' : (appendRound s token id src offset remote).uploaded = 0 := h0
    rw [appendRound_uploaded, List.length_take] at h0'
    have hnil : src = [] := List.length_eq_zero.mp (by omega)
    subst hnil
    rfl
  | case3 src offset bu remote r herr offset' bu' h0 ih =>
    rw [uploadparts_again s token id src offset bu remote herr h0] at hok
    have ih := ih hok
    have hlen : (src.take s.Config.ChunkSize.toNat).length +
        (src.drop s.Config.ChunkSize.toNat).length = src.length := by
      rw [← List.length_append, List.take_append_drop]
    simp only [r, offset', bu'] at ih
    rw [uploadparts_again s token id src offset bu remote herr h0]
    simp only []
    rw [ih, wrap64_wrap64_add, appendRound_uploaded, appendRound_rest]
    congr 1
    omega

theorem uploadparts_lengths (s : Store σ Data) (token id : String) (src : List UInt8)
    (offset bytesUploaded : Int) (remote : σ)
    (hok : (uploadparts s token id src offset bytesUploaded remote).err = none)
    (hC : 0 < s.Config.ChunkSize) :
    (uploadparts s token id src offset bytesUploaded remote).calls.map (fun c => c.body.length) =
      List.replicate (src.length / s.Config.ChunkSize.toNat) s.Config.ChunkSize.toNat ++
        (if src.length % s.Config.ChunkSize.toNat = 0 then []
          else [src.length % s.Config.ChunkSize.toNat]) ++ [0] := by
  have hc : 0 < s.Config.ChunkSize.toNat := by omega
  induction src, offset, bytesUploaded, remote using uploadparts.induct s token id with
  | case1 src offset bu remote r err herr =>
    rw [uploadparts_failed s token id src offset bu remote err herr] at hok
    cases hok
  | case2 src offset bu remote r herr h0 =>
    rw [uploadparts_done s token id src offset bu remote herr h0]
    have h0' : (appendRound s token id src offset remote).uploaded = 0 := h0
    rw [appendRound_uploaded, List.length_take] at h0'
    have hnil : src = [] := List.length_eq_zero.mp (by omega)
    subst hnil
    simp [appendRound_call]
  | case3 src offset bu remote r herr offset' bu' h0 ih =>
    rw [uploadparts_again s token id src offset bu remote herr h0] at hok
    have ih := ih hok
    simp only [r, offset', bu'] at ih
    rw [uploadparts_again s token id src offset bu remote herr h0]
    have h0' : ¬ (appendRound s token id src offset remote).uploaded = 0 := h0
    rw [appendRound_uploaded, List.length_take] at h0'
    simp only [List.map_cons]
    rw [ih]
    simp only [appendRound_call, appendRound_rest, List.length_take, List.length_drop]
    rcases Nat.lt_or_ge src.length s.Config.ChunkSize.toNat with hlt | hge
    · have h1 : src.length - s.Config.ChunkSize.toNat = 0 := by omega
      have h2 : src.length / s.Config.ChunkSize.toNat = 0 := Nat.div_eq_of_lt hlt
      have h3 : src.length % s.Config.ChunkSize.toNat = src.length := Nat.mod_eq_of_lt hlt
      have h4 : ¬ src.length = 0 := by omega
      have h5 : min s.Config.ChunkSize.toNat src.length = src.length := by omega
      simp [h1, h2, h3, h4, h5]
    · have h2 : src.length / s.Config.ChunkSize.toNat =
          (src.length - s.Config.ChunkSize.toNat) / s.Config.ChunkSize.toNat + 1 :=
        Nat.div_eq_sub_div hc hge
      have h3 : src.length % s.Config.ChunkSize.toNat =
          (src.length - s.Config.ChunkSize.toNat) % s.Config.ChunkSize.toNat :=
        Nat.mod_eq_sub_mod hge
      have h5 : min s.Config.ChunkSize.toNat src.length = s.Config.ChunkSize.toNat := by omega
      rw [h2, h3, h5, List.replicate_succ]
      simp

theorem wrap64_range (z : Int) :
    -9223372036854775808 ≤ wrap64 z ∧ wrap64 z < 9223372036854775808 := by
  unfold wrap64; omega

/-! ## The metadata record -/

theorem getInfo_writeInfo (s : Store σ Data) (fs : FS Data) (id : String) (info : FileInfo)
    (hJ : s.json.Faithful) (hW : fs.writable (infoPath s id) = true) :
    getInfo s (writeInfo s fs id info).1 id = (info, none) := by
  obtain ⟨d, hm, hu⟩ := hJ info
  simp [getInfo, writeInfo, hm, FS.WriteFile, hW, FS.ReadFile, hu]

theorem writeInfo_writable (s : Store σ Data) (fs : FS Data) (id : String) (info : FileInfo) :
    (writeInfo s fs id info).1.writable = fs.writable := by
  unfold writeInfo FS.WriteFile
  split
  · rfl
  · split <;> rfl

theorem writeInfo_ok_writable (s : Store σ Data) (fs : FS Data) (id : String) (info : FileInfo)
    (h : (writeInfo s fs id info).2 = none) : fs.writable (infoPath s id) = true := by
  unfold writeInfo FS.WriteFile at h
  split at h
  · simp at h
  · split at h
    · assumption
    · simp at h

theorem mapDelete_cons (a b : String) (m : MetaData) (k : String) :
    mapDelete ((a, b) :: m) k = if a = k then mapDelete m k else (a, b) :: mapDelete m k := by
  unfold mapDelete
  by_cases h : a = k
  · simp only [List.filter_cons, h, bne_self_eq_false, if_true]
    rfl
  · have hb : (a != k) = true := by simpa using h
    simp only [List.filter_cons, hb, h, if_true, if_false]

theorem lookup_mapDelete_self (m : MetaData) (k : String) : (mapDelete m k).lookup k = none := by
  induction m with
  | nil => rfl
  | cons kv m ih =>
    obtain ⟨a, b⟩ := kv
    rw [mapDelete_cons]
    by_cases h : a = k
    · rw [if_pos h]; exact ih
    · have h' : (k == a) = false := by simpa using fun e : k = a => h e.symm
      rw [if_neg h, List.lookup_cons, h']
      exact ih

theorem lookup_mapDelete_ne (m : MetaData) (k k' : String) (hk : k' ≠ k) :
    (mapDelete m k).lookup k' = m.lookup k' := by
  induction m with
  | nil => rfl
  | cons kv m ih =>
    obtain ⟨a, b⟩ := kv
    rw [mapDelete_cons]
    by_cases h : a = k
    · have h' : (k' == a) = false := by simpa [h] using hk
      rw [if_pos h, List.lookup_cons, h']
      exact ih
    · rw [if_neg h, List.lookup_cons, List.lookup_cons, ih]

theorem mem_mapDelete (m : MetaData) (k : String) (kv : String × String) :
    kv ∈ mapDelete m k ↔ kv ∈ m ∧ kv.1 ≠ k := by
  unfold mapDelete
  simp [List.mem_filter]

/-! ## `WriteChunk` -/

theorem WriteChunk_ok (s : Store σ Data) (w : World σ Data) (id : String) (offset : Int)
    (src : List UInt8) (info : FileInfo) (hget : getInfo s w.fs id = (info, none))
    (herr : (uploadparts s (mapIndex info.MetaData "token") id src offset 0 w.remote).err = none) :
    WriteChunk s w id offset src =
      { bytesUploaded :=
          (uploadparts s (mapIndex info.MetaData "token") id src offset 0 w.remote).bytesUploaded
        err := none
        world :=
          { fs := (writeInfo s w.fs id
              { ID := id
                Offset := wrap64 (info.Offset +
                  (uploadparts s (mapIndex info.MetaData "token") id src offset 0
                    w.remote).bytesUploaded)
                MetaData := info.MetaData }).1
            remote :=
              (uploadparts s (mapIndex info.MetaData "token") id src offset 0 w.remote).remote }
        calls :=
          (uploadparts s (mapIndex info.MetaData "token") id src offset 0 w.remote).calls } := by
  unfold WriteChunk
  rw [hget]
  simp only [herr]

theorem WriteChunk_failed (s : Store σ Data) (w : World σ Data) (id : String) (offset : Int)
    (src : List UInt8) (info : FileInfo) (err : Error)
    (hget : getInfo s w.fs id = (info, none))
    (herr : (uploadparts s (mapIndex info.MetaData "token") id src offset 0 w.remote).err =
      some err) :
    WriteChunk s w id offset src =
      { bytesUploaded :=
          (uploadparts s (mapIndex info.MetaData "token") id src offset 0 w.remote).bytesUploaded
        err := some err
        world := { w with remote :=
          (uploadparts s (mapIndex info.MetaData "token") id src offset 0 w.remote).remote }
        calls :=
          (uploadparts s (mapIndex info.MetaData "token") id src offset 0 w.remote).calls } := by
  unfold WriteChunk
  rw [hget]
  simp only [herr]

theorem okDropbox_appendsSucceed (sid : String) : (okDropbox sid).AppendsSucceed :=
  fun _ _ _ _ => rfl

theorem plainJson_faithful : plainJson.Faithful :=
  fun info => ⟨info, rfl, rfl⟩

theorem WriteChunk_loop_err (s : Store σ Data) (w : World σ Data) (id : String)
    (offset : Int) (src : List UInt8) (info : FileInfo)
    (hget : getInfo s w.fs id = (info, none))
    (hrun : (WriteChunk s w id offset src).err = none) :
    (uploadparts s (mapIndex info.MetaData "token") id src offset 0 w.remote).err = none := by
  cases herr : (uploadparts s (mapIndex info.MetaData "token") id src offset 0 w.remote).err with
  | none => rfl
  | some e =>
    rw [WriteChunk_failed s w id offset src info e hget herr] at hrun
    cases hrun

theorem uploadparts_of_fuel (s : Store σ Data) (token id : String) (src : List UInt8)
    (offset bytesUploaded : Int) (remote : σ) (res : LoopResult σ)
    (h : uploadpartsFuel s token id (src.length + 1) src offset bytesUploaded remote =
      some res) :
    uploadparts s token id src offset bytesUploaded remote = res := by
  rw [uploadpartsFuel_eq _ _ _ _ _ _ _ _ (Nat.lt_succ_self _)] at h
  exact Option.some.inj h

theorem writeChunks_getInfo (s : Store σ Data) (id : String) (hC : 0 < s.Config.ChunkSize)
    (hJ : s.json.Faithful) :
    ∀ (streams : List (List UInt8)) (w : World σ Data) (offset : Int) (info : FileInfo),
      getInfo s w.fs id = (info, none) → w.fs.writable (infoPath s id) = true →
      (∀ e ∈ writeChunksErrs s id w offset streams, e = none) →
      -9223372036854775808 ≤ info.Offset → info.Offset < 9223372036854775808 →
      ∃ info' : FileInfo, getInfo s (writeChunks s id w offset streams).fs id = (info', none) ∧
        info'.Offset = wrap64 (info.Offset + (((streams.map List.length).sum : Nat) : Int)) := by
  intro streams
  induction streams with
  | nil =>
    intro w offset info hget _ _ hlo hhi
    refine ⟨info, hget, ?_⟩
    simp [wrap64_of_range info.Offset hlo hhi]
  | cons src rest ih =>
    intro w offset info hget hW hrun _ _
    have hhead : (WriteChunk s w id offset src).err = none :=
      hrun _ (List.mem_cons_self _ _)
    have htail : ∀ e ∈ writeChunksErrs s id (WriteChunk s w id offset src).world
        (wrap64 (offset + (WriteChunk s w id offset src).bytesUploaded)) rest, e = none :=
      fun e he => hrun e (List.mem_cons_of_mem _ he)
    have hloop := WriteChunk_loop_err s w id offset src info hget hhead
    have hok := WriteChunk_ok s w id offset src info hget hloop
    have hb := uploadparts_bytesUploaded s (mapIndex info.MetaData "token") id src offset 0
      w.remote hloop hC
    obtain ⟨info', hget', hoff⟩ := ih (WriteChunk s w id offset src).world
      (wrap64 (offset + (WriteChunk s w id offset src).bytesUploaded))
      { ID := id, Offset := wrap64 (info.Offset + wrap64 (0 + (src.length : Int))),
        MetaData := info.MetaData }
      (by rw [hok, hb]; exact getInfo_writeInfo s w.fs id _ hJ hW)
      (by rw [hok]; simp only [writeInfo_writable]; exact hW)
      htail (wrap64_range _).1 (wrap64_range _).2
    refine ⟨info', hget', ?_⟩
    rw [hoff]
    simp only [List.map_cons, List.sum_cons, Nat.cast_add]
    unfold wrap64
    omega

theorem ceil_div (n c : Nat) (hc : 0 < c) :
    (n + c - 1) / c = n / c + (if n % c = 0 then 0 else 1) := by
  have h := Nat.div_add_mod n c
  by_cases hr : n % c = 0
  · rw [if_pos hr]
    have e : n + c - 1 = (c - 1) + c * (n / c) := by omega
    rw [e, Nat.add_mul_div_left _ _ hc, Nat.div_eq_of_lt (by omega)]
    omega
  · rw [if_neg hr]
    have hlt := Nat.mod_lt n hc
    have e : n + c - 1 = (n % c - 1) + c * (n / c + 1) := by
      rw [Nat.mul_succ]
      omega
    rw [e, Nat.add_mul_div_left _ _ hc, Nat.div_eq_of_lt (by omega)]
    omega

/-! ## The claims -/

/-- Claim C1: starting from a stored record with offset 0, with a positive chunk size,
when `WriteChunk` is called once per stream in order, each call given the offset
reached so far, no call of the run returns an error (every remote append of the run
succeeds) and every record write succeeds, the record stored after the last call has
`Offset` equal to the total number `N` of bytes of the streams (`N` being an `int64`
value). -/
theorem writeChunks_final_offset (s : Store σ Data) (w : World σ Data) (id : String)
    (info : FileInfo) (streams : List (List UInt8))
    (hC : 0 < s.Config.ChunkSize)
    (hget : getInfo s w.fs id = (info, none)) (h0 : info.Offset = 0)
    (hrun : ∀ e ∈ writeChunksErrs s id w 0 streams, e = none)
    (hJ : s.json.Faithful)
    (hW : w.fs.writable (infoPath s id) = true)
    (hN : (((streams.map List.length).sum : Nat) : Int) < 9223372036854775808) :
    ∃ info' : FileInfo, getInfo s (writeChunks s id w 0 streams).fs id = (info', none) ∧
      info'.Offset = (((streams.map List.length).sum : Nat) : Int) := by
  obtain ⟨info', hget', hoff⟩ := writeChunks_getInfo s id hC hJ streams w 0 info hget hW hrun
    (by omega) (by omega)
  refine ⟨info', hget', ?_⟩
  rw [hoff, h0, Int.zero_add]
  apply wrap64_of_range <;> omega

/-- Claim C1, at the scenario of the spec cut in two streams of 6 and 4 bytes, against a
service that rejects any session other than `abc`. -/
theorem writeChunks_final_offset_witness :
    ∃ info' : FileInfo,
      getInfo (testStore (recordingDropbox "abc") 4)
        (writeChunks (testStore (recordingDropbox "abc") 4) "abc"
          { fs := singleFS "/tmp/abc.info" abcInfo true, remote := [] } 0
          [[1, 2, 3, 4, 5, 6], [7, 8, 9, 10]]).fs "abc" = (info', none) ∧
      info'.Offset = ((([[1, 2, 3, 4, 5, 6], [7, 8, 9, 10]].map List.length).sum : Nat) : Int) :=
  writeChunks_final_offset (testStore (recordingDropbox "abc") 4)
    { fs := singleFS "/tmp/abc.info" abcInfo true, remote := [] } "abc" abcInfo
    [[1, 2, 3, 4, 5, 6], [7, 8, 9, 10]] (by decide) (by decide) (by decide)
    (by simp [writeChunksErrs, WriteChunk, getInfo, writeInfo, FS.ReadFile, FS.WriteFile,
      singleFS, testStore, infoPath, plainJson, uploadparts, appendRound,
      LimitedReader.readAll, recordingDropbox, abcInfo, mapIndex])
    plainJson_faithful (by decide) (by decide)

/-- Claim C4: when the record of `id` exists and decodes, `GetInfo` returns the stored
record with the key `token` erased from its metadata: the key `token` is absent from
what is returned, whether or not it was stored, and `ID`, `Offset` and every other
metadata key and value are the stored ones. -/
theorem GetInfo_erases_token (s : Store σ Data) (fs : FS Data) (id : String) (info : FileInfo)
    (hget : getInfo s fs id = (info, none)) :
    GetInfo s fs id = ({ info with MetaData := mapDelete info.MetaData "token" }, none) ∧
      (GetInfo s fs id).1.MetaData.lookup "token" = none ∧
      (∀ kv ∈ (GetInfo s fs id).1.MetaData, kv.1 ≠ "token") ∧
      (GetInfo s fs id).1.ID = info.ID ∧ (GetInfo s fs id).1.Offset = info.Offset ∧
      (∀ k : String, k ≠ "token" →
        (GetInfo s fs id).1.MetaData.lookup k = info.MetaData.lookup k) ∧
      (∀ kv : String × String, kv.1 ≠ "token" →
        (kv ∈ (GetInfo s fs id).1.MetaData ↔ kv ∈ info.MetaData)) := by
  have h : GetInfo s fs id = ({ info with MetaData := mapDelete info.MetaData "token" }, none) := by
    unfold GetInfo
    rw [hget]
  rw [h]
  refine ⟨rfl, lookup_mapDelete_self _ _, ?_, rfl, rfl, ?_, ?_⟩
  · intro kv hkv
    exact ((mem_mapDelete _ _ _).mp hkv).2
  · intro k hk
    exact lookup_mapDelete_ne _ _ _ hk
  · intro kv hkv
    simp only [mem_mapDelete]
    exact ⟨fun h => h.1, fun h => ⟨h, hkv⟩⟩

/-- Claim C4, at the record of the spec's scenario, which stores a token. -/
theorem GetInfo_erases_token_witness :
    GetInfo (testStore (okDropbox "abc") 4) (singleFS "/tmp/abc.info" abcInfo true) "abc" =
        ({ abcInfo with MetaData := mapDelete abcInfo.MetaData "token" }, none) ∧
      (GetInfo (testStore (okDropbox "abc") 4)
        (singleFS "/tmp/abc.info" abcInfo true) "abc").1.MetaData.lookup "token" = none :=
  have h := GetInfo_erases_token (testStore (okDropbox "abc") 4)
    (singleFS "/tmp/abc.info" abcInfo true) "abc" abcInfo (by decide)
  ⟨h.1, h.2.1⟩

/-- Claim C5: for every input stream, every chunk size (positive, zero or negative) and
every offset, the upload loop of `WriteChunk` terminates: run round by round it is
left within `len(src) + 1` rounds with the result of the recursion on the bytes
remaining, it issues at most `len(src) + 1` appends, every round before the last
consumed at least one byte, and the last round either failed or consumed no byte. -/
theorem uploadparts_terminates (s : Store σ Data) (token id : String) (src : List UInt8)
    (offset bytesUploaded : Int) (remote : σ) :
    uploadpartsFuel s token id (src.length + 1) src offset bytesUploaded remote =
        some (uploadparts s token id src offset bytesUploaded remote) ∧
      (uploadparts s token id src offset bytesUploaded remote).calls.length ≤ src.length + 1 ∧
      (∀ c ∈ (uploadparts s token id src offset bytesUploaded remote).calls.dropLast,
        c.body ≠ []) ∧
      ((uploadparts s token id src offset bytesUploaded remote).err.isSome = true ∨
        ∃ c, (uploadparts s token id src offset bytesUploaded remote).calls.getLast? = some c ∧
          c.body = []) := by
  refine ⟨uploadpartsFuel_eq s token id src offset bytesUploaded remote _ (Nat.lt_succ_self _),
    uploadparts_calls_length s token id src offset bytesUploaded remote,
    uploadparts_dropLast_body s token id src offset bytesUploaded remote, ?_⟩
  cases herr : (uploadparts s token id src offset bytesUploaded remote).err with
  | some e => exact Or.inl rfl
  | none => exact Or.inr (uploadparts_last_body s token id src offset bytesUploaded remote herr)

/-- Claim C7: if `Terminate(id)` returns without error, the record of `id` no longer
exists and a following `GetInfo(id)` fails with a not-found error; and if no record
exists for `id`, `Terminate(id)` fails with a not-found error and leaves the store as
it was. -/
theorem Terminate_removes_record (s : Store σ Data) (fs : FS Data) (id : String) :
    ((Terminate s fs id).2 = none →
        (Terminate s fs id).1.files (infoPath s id) = none ∧
        (GetInfo s (Terminate s fs id).1 id).2 = some (.notExist "open" (infoPath s id)) ∧
        (Error.notExist "open" (infoPath s id)).isNotExist = true) ∧
      (fs.files (infoPath s id) = none →
        Terminate s fs id = (fs, some (.notExist "remove" (infoPath s id))) ∧
        (Error.notExist "remove" (infoPath s id)).isNotExist = true) := by
  constructor
  · intro h
    have hfile : (Terminate s fs id).1.files (infoPath s id) = none := by
      unfold Terminate FS.Remove at h ⊢
      split at h
      · simp at h
      · split at h
        · rename_i hsome hrm
          simp [hsome, hrm]
        · simp at h
    refine ⟨hfile, ?_, rfl⟩
    simp [GetInfo, getInfo, FS.ReadFile, hfile]
  · intro h
    refine ⟨?_, rfl⟩
    simp [Terminate, FS.Remove, h]

/-- Claim C7, at a store holding the record `abc` and at an empty store. -/
theorem Terminate_removes_record_witness :
    ((Terminate (testStore (okDropbox "abc") 4)
          (singleFS "/tmp/abc.info" abcInfo true) "abc").1.files
        (infoPath (testStore (okDropbox "abc") 4) "abc") = none ∧
      (GetInfo (testStore (okDropbox "abc") 4)
          (Terminate (testStore (okDropbox "abc") 4)
            (singleFS "/tmp/abc.info" abcInfo true) "abc").1 "abc").2 =
        some (.notExist "open" (infoPath (testStore (okDropbox "abc") 4) "abc")) ∧
      (Error.notExist "open" (infoPath (testStore (okDropbox "abc") 4) "abc")).isNotExist = true) ∧
    (Terminate (testStore (okDropbox "abc") 4) (emptyFS true) "abc" =
        (emptyFS true,
          some (.notExist "remove" (infoPath (testStore (okDropbox "abc") 4) "abc"))) ∧
      (Error.notExist "remove"
        (infoPath (testStore (okDropbox "abc") 4) "abc")).isNotExist = true) :=
  ⟨(Terminate_removes_record (testStore (okDropbox "abc") 4)
      (singleFS "/tmp/abc.info" abcInfo true) "abc").1 (by decide),
    (Terminate_removes_record (testStore (okDropbox "abc") 4) (emptyFS true) "abc").2
      (by decide)⟩

/-- Claim C8: `FinishUpload(id)` leaves the metadata store as it was, whether the remote
finish call succeeds or fails and whether or not the record can be loaded: no record
is deleted or rewritten, and `GetInfo(id)` returns afterwards what it returned before. -/
theorem FinishUpload_keeps_records (s : Store σ Data) (w : World σ Data) (id : String) :
    (FinishUpload s w id).2.fs = w.fs ∧
      GetInfo s (FinishUpload s w id).2.fs id = GetInfo s w.fs id := by
  have h : (FinishUpload s w id).2.fs = w.fs := by
    unfold FinishUpload
    split <;> rfl
  exact ⟨h, by rw [h]⟩

/-- Claim C10 fails as stated: the cursor offset is advanced in `int64` arithmetic.
Called with offset `2^63 - 2`, ten bytes and chunk size 4, `WriteChunk` returns no
error and the service has received four appends whose cursor offsets are `2^63 - 2`,
`-2^63 + 2`, `-2^63 + 6` and `-2^63 + 8`: the second is not the offset plus the 4 bytes
sent before it. -/
theorem WriteChunk_cursor_wraps :
    (WriteChunk (testStore (recordingDropbox "abc") 4)
        { fs := singleFS "/tmp/abc.info" abcInfo true, remote := [] } "abc"
          9223372036854775806 tenBytes).err = none ∧
      (WriteChunk (testStore (recordingDropbox "abc") 4)
        { fs := singleFS "/tmp/abc.info" abcInfo true, remote := [] } "abc"
          9223372036854775806 tenBytes).world.remote =
        [⟨⟨"abc", 9223372036854775806⟩, [1, 2, 3, 4]⟩,
          ⟨⟨"abc", -9223372036854775806⟩, [5, 6, 7, 8]⟩,
          ⟨⟨"abc", -9223372036854775802⟩, [9, 10]⟩,
          ⟨⟨"abc", -9223372036854775800⟩, []⟩] ∧
      (WriteChunk (testStore (recordingDropbox "abc") 4)
        { fs := singleFS "/tmp/abc.info" abcInfo true, remote := [] } "abc"
          9223372036854775806 tenBytes).calls =
        (WriteChunk (testStore (recordingDropbox "abc") 4)
          { fs := singleFS "/tmp/abc.info" abcInfo true, remote := [] } "abc"
            9223372036854775806 tenBytes).world.remote ∧
      ¬ (∀ (i : Nat) (hi : i < (WriteChunk (testStore (recordingDropbox "abc") 4)
            { fs := singleFS "/tmp/abc.info" abcInfo true, remote := [] } "abc"
              9223372036854775806 tenBytes).calls.length),
          ((WriteChunk (testStore (recordingDropbox "abc") 4)
            { fs := singleFS "/tmp/abc.info" abcInfo true, remote := [] } "abc"
              9223372036854775806 tenBytes).calls[i]).Cursor.Offset =
            9223372036854775806 +
              ((((WriteChunk (testStore (recordingDropbox "abc") 4)
                { fs := singleFS "/tmp/abc.info" abcInfo true, remote := [] } "abc"
                  9223372036854775806 tenBytes).calls.take i).map
                (fun c => (c.body.length : Int))).sum)) := by
  have hget : getInfo (testStore (recordingDropbox "abc") 4)
      (singleFS "/tmp/abc.info" abcInfo true) "abc" = (abcInfo, none) := by decide
  have hloop := uploadparts_of_fuel (testStore (recordingDropbox "abc") 4)
    (mapIndex abcInfo.MetaData "token") "abc" tenBytes 9223372036854775806 0 []
    { bytesUploaded := 10, err := none
      remote := [⟨⟨"abc", 9223372036854775806⟩, [1, 2, 3, 4]⟩,
        ⟨⟨"abc", -9223372036854775806⟩, [5, 6, 7, 8]⟩,
        ⟨⟨"abc", -9223372036854775802⟩, [9, 10]⟩,
        ⟨⟨"abc", -9223372036854775800⟩, []⟩]
      calls := [⟨⟨"abc", 9223372036854775806⟩, [1, 2, 3, 4]⟩,
        ⟨⟨"abc", -9223372036854775806⟩, [5, 6, 7, 8]⟩,
        ⟨⟨"abc", -9223372036854775802⟩, [9, 10]⟩,
        ⟨⟨"abc", -9223372036854775800⟩, []⟩] } rfl
  have hW := WriteChunk_ok (testStore (recordingDropbox "abc") 4)
    { fs := singleFS "/tmp/abc.info" abcInfo true, remote := [] } "abc"
    9223372036854775806 tenBytes abcInfo hget (by rw [hloop])
  rw [hW, hloop]
  refine ⟨rfl, rfl, rfl, ?_⟩
  intro h
  have h1 := h 1 (by decide)
  revert h1
  decide

/-- Claim C10, amended: with a positive chunk size, an existing record and no error
returned (no append of the run fails), the service has received, in order, exactly the
append calls of the run and accepted each; they carry slices of the input of at most
`ChunkSize` bytes whose concatenation is the whole input, each for the session `id`;
the cursor offset of the first call is `offset` and that of each later call is `offset`
plus the total length of the bodies of the earlier calls in `int64` arithmetic, which
is the exact sum whenever `offset` plus the input length is an `int64` value; and
`bytesUploaded` is the input length in `int64` arithmetic, the exact length whenever
that is an `int64` value. -/
theorem WriteChunk_appends_input (s : Store σ Data) (w : World σ Data) (id : String)
    (offset : Int) (src : List UInt8) (info : FileInfo)
    (hC : 0 < s.Config.ChunkSize)
    (hget : getInfo s w.fs id = (info, none))
    (hrun : (WriteChunk s w id offset src).err = none) :
    serve s.dropbox (mapIndex info.MetaData "token") w.remote
        (WriteChunk s w id offset src).calls =
        ((WriteChunk s w id offset src).world.remote, none) ∧
      ((WriteChunk s w id offset src).calls.map (fun c => c.body)).flatten = src ∧
      (∀ c ∈ (WriteChunk s w id offset src).calls,
        (c.body.length : Int) ≤ s.Config.ChunkSize ∧ c.Cursor.ID = id) ∧
      (∀ (i : Nat) (hi : i < (WriteChunk s w id offset src).calls.length),
        ((WriteChunk s w id offset src).calls[i]).Cursor.Offset =
          if i = 0 then offset
          else wrap64 (offset + ((((WriteChunk s w id offset src).calls.take i).map
            (fun c => (c.body.length : Int))).sum))) ∧
      (-9223372036854775808 ≤ offset → offset + (src.length : Int) < 9223372036854775808 →
        ∀ (i : Nat) (hi : i < (WriteChunk s w id offset src).calls.length),
          ((WriteChunk s w id offset src).calls[i]).Cursor.Offset =
            offset + ((((WriteChunk s w id offset src).calls.take i).map
              (fun c => (c.body.length : Int))).sum)) ∧
      (WriteChunk s w id offset src).bytesUploaded = wrap64 (src.length : Int) ∧
      ((src.length : Int) < 9223372036854775808 →
        (WriteChunk s w id offset src).bytesUploaded = (src.length : Int)) := by
  have hloop := WriteChunk_loop_err s w id offset src info hget hrun
  have hb := uploadparts_bytesUploaded s (mapIndex info.MetaData "token") id src offset 0
    w.remote hloop hC
  have hs := uploadparts_serve s (mapIndex info.MetaData "token") id src offset 0 w.remote
  rw [hloop] at hs
  rw [Int.zero_add] at hb
  rw [WriteChunk_ok s w id offset src info hget hloop]
  refine ⟨hs, uploadparts_bodies _ _ _ _ _ _ _ hloop hC, ?_,
    uploadparts_offsets_wrap _ _ _ _ _ _ _,
    fun hlo hhi => uploadparts_offsets _ _ _ _ _ _ _ hlo hhi, hb, ?_⟩
  · intro c hc
    have h := uploadparts_call_shape _ _ _ _ _ _ _ c hc
    exact ⟨by omega, h.2⟩
  · intro hN
    show (uploadparts s _ id src offset 0 w.remote).bytesUploaded = _
    rw [hb]
    apply wrap64_of_range <;> omega

/-- Claim C10 amended, at the scenario of the spec (ten bytes, chunk size 4, offset 0),
against a service that rejects any session other than `abc`. -/
theorem WriteChunk_appends_input_witness :
    serve (recordingDropbox "abc") (mapIndex abcInfo.MetaData "token") []
        (WriteChunk (testStore (recordingDropbox "abc") 4)
          { fs := singleFS "/tmp/abc.info" abcInfo true, remote := [] } "abc" 0
            tenBytes).calls =
        ((WriteChunk (testStore (recordingDropbox "abc") 4)
          { fs := singleFS "/tmp/abc.info" abcInfo true, remote := [] } "abc" 0
            tenBytes).world.remote, none) ∧
      ((WriteChunk (testStore (recordingDropbox "abc") 4)
        { fs := singleFS "/tmp/abc.info" abcInfo true, remote := [] } "abc" 0
          tenBytes).calls.map (fun c => c.body)).flatten = tenBytes ∧
      (WriteChunk (testStore (recordingDropbox "abc") 4)
        { fs := singleFS "/tmp/abc.info" abcInfo true, remote := [] } "abc" 0
          tenBytes).bytesUploaded = 10 :=
  have h := WriteChunk_appends_input (testStore (recordingDropbox "abc") 4)
    { fs := singleFS "/tmp/abc.info" abcInfo true, remote := [] } "abc" 0 tenBytes abcInfo
    (by decide) (by decide)
    (by simp [WriteChunk, getInfo, FS.ReadFile, singleFS, testStore, infoPath, plainJson,
      uploadparts, appendRound, LimitedReader.readAll, recordingDropbox, abcInfo, tenBytes,
      mapIndex])
  ⟨h.1, h.2.1, h.2.2.2.2.2.2 (by decide)⟩

/-- Claim C2 fails as stated: in the spec's scenario with the second append failing, one
round of 4 bytes succeeds, `WriteChunk` returns the error and 4 uploaded bytes, and the
stored record still has `Offset` 0, not 4. -/
theorem WriteChunk_failure_not_persisted :
    (WriteChunk (testStore (countingDropbox "abc" 1) 4)
        { fs := singleFS "/tmp/abc.info" abcInfo true, remote := 0 } "abc" 0 tenBytes).err =
        some (.remote "append") ∧
      (WriteChunk (testStore (countingDropbox "abc" 1) 4)
        { fs := singleFS "/tmp/abc.info" abcInfo true, remote := 0 } "abc" 0
          tenBytes).calls.map (fun c => c.body.length) = [4, 4] ∧
      (WriteChunk (testStore (countingDropbox "abc" 1) 4)
        { fs := singleFS "/tmp/abc.info" abcInfo true, remote := 0 } "abc" 0
          tenBytes).bytesUploaded = 4 ∧
      getInfo (testStore (countingDropbox "abc" 1) 4)
        (singleFS "/tmp/abc.info" abcInfo true) "abc" = (abcInfo, none) ∧
      abcInfo.Offset = 0 ∧
      ¬ (getInfo (testStore (countingDropbox "abc" 1) 4)
        (WriteChunk (testStore (countingDropbox "abc" 1) 4)
          { fs := singleFS "/tmp/abc.info" abcInfo true, remote := 0 } "abc" 0
            tenBytes).world.fs "abc").1.Offset = 0 + 4 := by
  have hget : getInfo (testStore (countingDropbox "abc" 1) 4)
      (singleFS "/tmp/abc.info" abcInfo true) "abc" = (abcInfo, none) := by decide
  have hloop : uploadpartsFuel (testStore (countingDropbox "abc" 1) 4)
      (mapIndex abcInfo.MetaData "token") "abc" (tenBytes.length + 1) tenBytes 0 0 0 =
      some { bytesUploaded := 4, err := some (.remote "append"), remote := 2,
             calls := [⟨⟨"abc", 0⟩, [1, 2, 3, 4]⟩, ⟨⟨"abc", 4⟩, [5, 6, 7, 8]⟩] } := by
    rfl
  rw [uploadpartsFuel_eq _ _ _ _ _ _ _ _ (Nat.lt_succ_self _)] at hloop
  have hloop' := Option.some.inj hloop
  have hW := WriteChunk_failed (testStore (countingDropbox "abc" 1) 4)
    { fs := singleFS "/tmp/abc.info" abcInfo true, remote := 0 } "abc" 0 tenBytes abcInfo
    (.remote "append") hget (by rw [hloop'])
  rw [hW, hloop']
  refine ⟨rfl, by decide, rfl, hget, rfl, ?_⟩
  show ¬ (getInfo (testStore (countingDropbox "abc" 1) 4)
    (singleFS "/tmp/abc.info" abcInfo true) "abc").1.Offset = 0 + 4
  rw [hget]
  decide

/-- Claim C2, amended: when the record of `id` can be loaded and `WriteChunk` returns an
error (a remote append failed), the metadata store is left as it was: the record
stored under `id` is the one stored before, its `Offset` not increased. -/
theorem WriteChunk_failure_keeps_record (s : Store σ Data) (w : World σ Data) (id : String)
    (offset : Int) (src : List UInt8) (info : FileInfo) (err : Error)
    (hget : getInfo s w.fs id = (info, none))
    (hfail : (WriteChunk s w id offset src).err = some err) :
    (uploadparts s (mapIndex info.MetaData "token") id src offset 0 w.remote).err = some err ∧
      (WriteChunk s w id offset src).world.fs = w.fs ∧
      getInfo s (WriteChunk s w id offset src).world.fs id = (info, none) := by
  cases herr : (uploadparts s (mapIndex info.MetaData "token") id src offset 0 w.remote).err with
  | none =>
    rw [WriteChunk_ok s w id offset src info hget herr] at hfail
    cases hfail
  | some e =>
    rw [WriteChunk_failed s w id offset src info e hget herr] at hfail ⊢
    cases hfail
    exact ⟨rfl, rfl, hget⟩

/-- Claim C2 amended, at the spec's scenario with the second append failing. -/
theorem WriteChunk_failure_keeps_record_witness :
    getInfo (testStore (countingDropbox "abc" 1) 4)
      (WriteChunk (testStore (countingDropbox "abc" 1) 4)
        { fs := singleFS "/tmp/abc.info" abcInfo true, remote := 0 } "abc" 0
          tenBytes).world.fs "abc" = (abcInfo, none) :=
  (WriteChunk_failure_keeps_record (testStore (countingDropbox "abc" 1) 4)
    { fs := singleFS "/tmp/abc.info" abcInfo true, remote := 0 } "abc" 0 tenBytes abcInfo
    (.remote "append") (by decide)
    (by simp [WriteChunk, getInfo, FS.ReadFile, singleFS, testStore, infoPath, plainJson,
      uploadparts, appendRound, LimitedReader.readAll, countingDropbox, abcInfo, tenBytes,
      mapIndex])).2.2

/-- Claim C3 fails as stated: an upload info that carries a token and `Offset` 7 is
stored as it is, so the `GetInfo` that follows `NewUpload` returns `Offset` 7, not 0. -/
theorem NewUpload_offset_not_reset :
    (offsetInfo.MetaData.lookup "token").isSome = true ∧
      (okDropbox "abc").SessionStart () (mapIndex offsetInfo.MetaData "token") =
        ((), .ok "abc") ∧
      (writeInfo (testStore (okDropbox "abc") 4) (emptyFS true) "abc"
        { offsetInfo with ID := "abc" }).2 = none ∧
      (NewUpload (testStore (okDropbox "abc") 4) { fs := emptyFS true, remote := () }
        offsetInfo).id = "abc" ∧
      (GetInfo (testStore (okDropbox "abc") 4)
        (NewUpload (testStore (okDropbox "abc") 4) { fs := emptyFS true, remote := () }
          offsetInfo).world.fs "abc").2 = none ∧
      ¬ (GetInfo (testStore (okDropbox "abc") 4)
        (NewUpload (testStore (okDropbox "abc") 4) { fs := emptyFS true, remote := () }
          offsetInfo).world.fs "abc").1.Offset = 0 := by
  refine ⟨by decide, rfl, by decide, by decide, by decide, by decide⟩

/-- Claim C3, amended: for every upload info whose metadata contains a token, if the
remote session start succeeds with session id `sid` and the record is written, then
`NewUpload` returns `sid`, and the `GetInfo(sid)` that follows succeeds and returns a
record whose `ID` is `sid`, whose `Offset` is the `Offset` of the info passed in (0 when
the info has `Offset` 0) and whose metadata has no key `token`. -/
theorem NewUpload_then_GetInfo (s : Store σ Data) (w : World σ Data) (info : FileInfo)
    (sid : String) (remote : σ)
    (_htoken : (info.MetaData.lookup "token").isSome = true)
    (hstart : s.dropbox.SessionStart w.remote (mapIndex info.MetaData "token") =
      (remote, .ok sid))
    (hJ : s.json.Faithful)
    (hwrite : (writeInfo s w.fs sid { info with ID := sid }).2 = none) :
    (NewUpload s w info).id = sid ∧ (NewUpload s w info).err = none ∧
      GetInfo s (NewUpload s w info).world.fs sid =
        ({ ID := sid, Offset := info.Offset, MetaData := mapDelete info.MetaData "token" },
          none) ∧
      (GetInfo s (NewUpload s w info).world.fs sid).1.MetaData.lookup "token" = none := by
  have hN : NewUpload s w info =
      { id := sid, err := none,
        world := { fs := (writeInfo s w.fs sid { info with ID := sid }).1, remote := remote } } := by
    unfold NewUpload
    rw [hstart]
  have hG : GetInfo s (NewUpload s w info).world.fs sid =
      ({ ID := sid, Offset := info.Offset, MetaData := mapDelete info.MetaData "token" },
        none) := by
    rw [hN]
    unfold GetInfo
    rw [getInfo_writeInfo s w.fs sid _ hJ (writeInfo_ok_writable s w.fs sid _ hwrite)]
  rw [hG, hN]
  exact ⟨rfl, rfl, rfl, lookup_mapDelete_self _ _⟩

/-- Claim C3 amended, at the upload info of the spec's scenario. -/
theorem NewUpload_then_GetInfo_witness :
    GetInfo (testStore (okDropbox "abc") 4)
      (NewUpload (testStore (okDropbox "abc") 4) { fs := emptyFS true, remote := () }
        { abcInfo with ID := "" }).world.fs "abc" =
      ({ ID := "abc", Offset := 0,
         MetaData := mapDelete [("token", "T"), ("path", "/dest")] "token" }, none) :=
  (NewUpload_then_GetInfo (testStore (okDropbox "abc") 4) { fs := emptyFS true, remote := () }
    { abcInfo with ID := "" } "abc" () (by decide) rfl plainJson_faithful (by decide)).2.2.1

/-- Claim C6 fails as stated: with ten bytes and chunk size 4 and no failure, the
service has received four append calls, of 4, 4, 2 and 0 bytes, not the three of
`ceil(10/4)`. -/
theorem WriteChunk_issues_empty_append :
    (WriteChunk (testStore (recordingDropbox "abc") 4)
        { fs := singleFS "/tmp/abc.info" abcInfo true, remote := [] } "abc" 0 tenBytes).err =
        none ∧
      (WriteChunk (testStore (recordingDropbox "abc") 4)
        { fs := singleFS "/tmp/abc.info" abcInfo true, remote := [] } "abc" 0
          tenBytes).world.remote =
        [⟨⟨"abc", 0⟩, [1, 2, 3, 4]⟩, ⟨⟨"abc", 4⟩, [5, 6, 7, 8]⟩, ⟨⟨"abc", 8⟩, [9, 10]⟩,
          ⟨⟨"abc", 10⟩, []⟩] ∧
      (WriteChunk (testStore (recordingDropbox "abc") 4)
        { fs := singleFS "/tmp/abc.info" abcInfo true, remote := [] } "abc" 0
          tenBytes).calls =
        (WriteChunk (testStore (recordingDropbox "abc") 4)
          { fs := singleFS "/tmp/abc.info" abcInfo true, remote := [] } "abc" 0
            tenBytes).world.remote ∧
      ¬ (WriteChunk (testStore (recordingDropbox "abc") 4)
        { fs := singleFS "/tmp/abc.info" abcInfo true, remote := [] } "abc" 0
          tenBytes).world.remote.length = (tenBytes.length + 4 - 1) / 4 ∧
      ¬ (WriteChunk (testStore (recordingDropbox "abc") 4)
        { fs := singleFS "/tmp/abc.info" abcInfo true, remote := [] } "abc" 0
          tenBytes).world.remote.map (fun c => c.body.length) = [4, 4, 2] := by
  have hget : getInfo (testStore (recordingDropbox "abc") 4)
      (singleFS "/tmp/abc.info" abcInfo true) "abc" = (abcInfo, none) := by decide
  have hloop := uploadparts_of_fuel (testStore (recordingDropbox "abc") 4)
    (mapIndex abcInfo.MetaData "token") "abc" tenBytes 0 0 []
    { bytesUploaded := 10, err := none
      remote := [⟨⟨"abc", 0⟩, [1, 2, 3, 4]⟩, ⟨⟨"abc", 4⟩, [5, 6, 7, 8]⟩,
        ⟨⟨"abc", 8⟩, [9, 10]⟩, ⟨⟨"abc", 10⟩, []⟩]
      calls := [⟨⟨"abc", 0⟩, [1, 2, 3, 4]⟩, ⟨⟨"abc", 4⟩, [5, 6, 7, 8]⟩,
        ⟨⟨"abc", 8⟩, [9, 10]⟩, ⟨⟨"abc", 10⟩, []⟩] } rfl
  have hW := WriteChunk_ok (testStore (recordingDropbox "abc") 4)
    { fs := singleFS "/tmp/abc.info" abcInfo true, remote := [] } "abc" 0 tenBytes abcInfo
    hget (by rw [hloop])
  rw [hW, hloop]
  exact ⟨rfl, rfl, rfl, by decide, by decide⟩

/-- Claim C6, amended: for an input of `N` bytes and a positive chunk size `C`, with an
existing record and no error returned (no append of the run fails), the service has
received, in order, exactly the append calls of the run and accepted each, and they are
`ceil(N/C) + 1` calls: one per non-empty chunk, of `C, ..., C` bytes followed by
`N mod C` bytes when that is not zero, and then one last call with an empty body; when
moreover the record write succeeds, the stored `Offset` has grown by `N`.  Ten bytes
with chunk size 4 give four calls, of 4, 4, 2 and 0 bytes, and take `Offset` from 0 to
10. -/
theorem WriteChunk_append_calls (s : Store σ Data) (w : World σ Data) (id : String)
    (offset : Int) (src : List UInt8) (info : FileInfo)
    (hC : 0 < s.Config.ChunkSize)
    (hget : getInfo s w.fs id = (info, none))
    (hrun : (WriteChunk s w id offset src).err = none) :
    serve s.dropbox (mapIndex info.MetaData "token") w.remote
        (WriteChunk s w id offset src).calls =
        ((WriteChunk s w id offset src).world.remote, none) ∧
      (WriteChunk s w id offset src).calls.map (fun c => c.body.length) =
        List.replicate (src.length / s.Config.ChunkSize.toNat) s.Config.ChunkSize.toNat ++
          (if src.length % s.Config.ChunkSize.toNat = 0 then []
            else [src.length % s.Config.ChunkSize.toNat]) ++ [0] ∧
      (WriteChunk s w id offset src).calls.length =
        (src.length + s.Config.ChunkSize.toNat - 1) / s.Config.ChunkSize.toNat + 1 ∧
      (s.json.Faithful → w.fs.writable (infoPath s id) = true → 0 ≤ info.Offset →
        info.Offset + (src.length : Int) < 9223372036854775808 →
        getInfo s (WriteChunk s w id offset src).world.fs id =
          ({ ID := id, Offset := info.Offset + (src.length : Int), MetaData := info.MetaData },
            none)) := by
  have hc : 0 < s.Config.ChunkSize.toNat := by omega
  have hloop := WriteChunk_loop_err s w id offset src info hget hrun
  have hl := uploadparts_lengths s (mapIndex info.MetaData "token") id src offset 0 w.remote
    hloop hC
  have hb := uploadparts_bytesUploaded s (mapIndex info.MetaData "token") id src offset 0
    w.remote hloop hC
  have hs := uploadparts_serve s (mapIndex info.MetaData "token") id src offset 0 w.remote
  rw [hloop] at hs
  rw [WriteChunk_ok s w id offset src info hget hloop]
  refine ⟨hs, hl, ?_, ?_⟩
  · have hlen := congrArg List.length hl
    rw [List.length_map] at hlen
    show (uploadparts s _ id src offset 0 w.remote).calls.length = _
    rw [hlen, ceil_div _ _ hc]
    simp only [List.length_append, List.length_replicate, List.length_singleton]
    split <;> simp
  · intro hJ hW hlo hhi
    show getInfo s (writeInfo s w.fs id _).1 id = _
    rw [getInfo_writeInfo s w.fs id _ hJ hW, hb, Int.zero_add]
    have e1 : wrap64 (src.length : Int) = (src.length : Int) := by
      apply wrap64_of_range <;> omega
    have e2 : wrap64 (info.Offset + (src.length : Int)) = info.Offset + (src.length : Int) := by
      apply wrap64_of_range <;> omega
    rw [e1, e2]

/-- Claim C6 amended, at the scenario of the spec (ten bytes, chunk size 4), against a
service that rejects any session other than `abc`. -/
theorem WriteChunk_append_calls_witness :
    serve (recordingDropbox "abc") (mapIndex abcInfo.MetaData "token") []
        (WriteChunk (testStore (recordingDropbox "abc") 4)
          { fs := singleFS "/tmp/abc.info" abcInfo true, remote := [] } "abc" 0
            tenBytes).calls =
        ((WriteChunk (testStore (recordingDropbox "abc") 4)
          { fs := singleFS "/tmp/abc.info" abcInfo true, remote := [] } "abc" 0
            tenBytes).world.remote, none) ∧
      (WriteChunk (testStore (recordingDropbox "abc") 4)
        { fs := singleFS "/tmp/abc.info" abcInfo true, remote := [] } "abc" 0
          tenBytes).calls.map (fun c => c.body.length) = [4, 4, 2, 0] ∧
      (WriteChunk (testStore (recordingDropbox "abc") 4)
        { fs := singleFS "/tmp/abc.info" abcInfo true, remote := [] } "abc" 0
          tenBytes).calls.length = 4 ∧
      getInfo (testStore (recordingDropbox "abc") 4)
        (WriteChunk (testStore (recordingDropbox "abc") 4)
          { fs := singleFS "/tmp/abc.info" abcInfo true, remote := [] } "abc" 0
            tenBytes).world.fs "abc" =
        ({ ID := "abc", Offset := 10, MetaData := abcInfo.MetaData }, none) :=
  have h := WriteChunk_append_calls (testStore (recordingDropbox "abc") 4)
    { fs := singleFS "/tmp/abc.info" abcInfo true, remote := [] } "abc" 0 tenBytes abcInfo
    (by decide) (by decide)
    (by simp [WriteChunk, getInfo, FS.ReadFile, singleFS, testStore, infoPath, plainJson,
      uploadparts, appendRound, LimitedReader.readAll, recordingDropbox, abcInfo, tenBytes,
      mapIndex])
  ⟨h.1, h.2.1, h.2.2.1, h.2.2.2 plainJson_faithful (by decide) (by decide) (by decide)⟩

/-- Claim C9 is broken by the code: in a directory that cannot be written `writeInfo`
returns an error, and `NewUpload` and `WriteChunk`, whose remote calls all succeed,
both return no error. -/
theorem writeInfo_error_dropped :
    (writeInfo (testStore (okDropbox "abc") 4) (emptyFS false) "abc"
        { abcInfo with ID := "abc" }).2 = some (.pathError "open" "/tmp/abc.info") ∧
      (NewUpload (testStore (okDropbox "abc") 4) { fs := emptyFS false, remote := () }
        abcInfo).id = "abc" ∧
      (NewUpload (testStore (okDropbox "abc") 4) { fs := emptyFS false, remote := () }
        abcInfo).err = none ∧
      (writeInfo (testStore (okDropbox "abc") 4) (singleFS "/tmp/abc.info" abcInfo false) "abc"
        { abcInfo with Offset := 10 }).2 = some (.pathError "open" "/tmp/abc.info") ∧
      (WriteChunk (testStore (okDropbox "abc") 4)
        { fs := singleFS "/tmp/abc.info" abcInfo false, remote := () } "abc" 0 tenBytes).err =
        none ∧
      (WriteChunk (testStore (okDropbox "abc") 4)
        { fs := singleFS "/tmp/abc.info" abcInfo false, remote := () } "abc" 0
          tenBytes).bytesUploaded = 10 ∧
      getInfo (testStore (okDropbox "abc") 4)
        (WriteChunk (testStore (okDropbox "abc") 4)
          { fs := singleFS "/tmp/abc.info" abcInfo false, remote := () } "abc" 0
            tenBytes).world.fs "abc" = (abcInfo, none) := by
  have hb := uploadparts_bytesUploaded (testStore (okDropbox "abc") 4)
    (mapIndex abcInfo.MetaData "token") "abc" tenBytes 0 0 ()
    (uploadparts_err _ _ _ _ _ _ _ (okDropbox_appendsSucceed "abc")) (by decide)
  have hW := WriteChunk_ok (testStore (okDropbox "abc") 4)
    { fs := singleFS "/tmp/abc.info" abcInfo false, remote := () } "abc" 0 tenBytes abcInfo
    (by decide) (uploadparts_err _ _ _ _ _ _ _ (okDropbox_appendsSucceed "abc"))
  rw [hW, hb]
  refine ⟨by decide, by decide, by decide, by decide, rfl, by decide, by decide⟩

end DropboxStore
